import Mathlib

/-!
Verification of the JetLagHideAndSeekDC region-derivation engine.

The derivation core (`applyQuestionsToMapGeoData`, `holedMask`, the
constraint evaluators, the question schema and the boundary cache) lives in
the repository's `@/maps` module, of which only the callers are available
here (`src/components/Map.tsx`, `src/components/PlacePicker.tsx`,
`src/components/QuestionSidebar.tsx`, `src/lib/context.ts`).  Definitions
carrying a doc comment starting with `Modelled from the spec:` embed the
missing module from the specification's words; everything else is a direct
shallow embedding of the TypeScript sources.

Geometry is discretised: a region is a finite set of integer grid points,
the geometry primitives of spec section 4.1 (intersect, difference, union,
buffer, distance) become the corresponding `Finset` operations, and area is
cardinality.  The spec only constrains the primitives algebraically
(internal consistency of distances, identity laws on the empty region), so
this discrete model satisfies the primitive contract verbatim.
-/

namespace JetLag

/-- A geographic point, discretised to an integer grid. -/
abbrev Pt := Int × Int

/-- A region (polygon / multipolygon) as the finite set of grid points it
covers. -/
abbrev Region := Finset Pt

/-- Modelled from the spec: half-width of the fixed outer bounding frame of
section 4.4 ("a fixed large bounding rectangle enclosing the base
polygon"). -/
def frameHalfWidth : Int := 6

/-- Modelled from the spec: the fixed outer bounding rectangle used by the
mask computation (`holedMask` in `@/maps`, missing from the sources). -/
def outerFrame : Region :=
  Finset.Icc (-frameHalfWidth) frameHalfWidth ×ˢ
    Finset.Icc (-frameHalfWidth) frameHalfWidth

/-- Modelled from the spec: squared distance between two grid points.
Section 4.1 requires only that one distance model is applied uniformly
("the contract only requires internal consistency"). -/
def distSq (p q : Pt) : Int :=
  (p.1 - q.1) * (p.1 - q.1) + (p.2 - q.2) * (p.2 - q.2)

/-- Modelled from the spec: `buffer(point, distance)` of section 4.1 — all
frame points within `d` of the center. -/
def buffer (center : Pt) (d : Int) : Region :=
  outerFrame.filter (fun p => distSq p center ≤ d * d)

/-- The exclusion registry of spec section 3: a named point-of-interest set
plus the identifiers currently disabled (`disabledStations` in
`src/lib/context.ts`). -/
structure ExclusionRegistry where
  pois : List (Nat × Pt)
  disabled : List Nat
deriving DecidableEq

/-- POIs not currently disabled, the only ones Matching/Measuring may use. -/
def ExclusionRegistry.activePois (reg : ExclusionRegistry) : List (Nat × Pt) :=
  reg.pois.filter (fun x => !(reg.disabled.contains x.1))

/-- Identifier of the active POI nearest to `p` (first wins on ties),
`none` when every POI is disabled. -/
def nearestPoi (reg : ExclusionRegistry) (p : Pt) : Option Nat :=
  match reg.activePois with
  | [] => none
  | poi :: rest =>
      some ((rest.foldl
        (fun best cand =>
          if distSq p cand.2 < best.2 then (cand.1, distSq p cand.2)
          else best)
        (poi.1, distSq p poi.2)).1)

/-- Squared distance from `p` to the nearest active POI, `none` when every
POI is disabled. -/
def minPoiDistSq (reg : ExclusionRegistry) (p : Pt) : Option Int :=
  match reg.activePois.map (fun poi => distSq p poi.2) with
  | [] => none
  | d :: ds => some (ds.foldl min d)

/-- Whether the distance from `p` to its nearest active POI satisfies the
stated bound (Measuring evaluator, spec section 4.3). -/
def poiWithinBound (reg : ExclusionRegistry) (bound : Int) (p : Pt) : Bool :=
  match minPoiDistSq reg p with
  | none => false
  | some d => d ≤ bound * bound

/-- Modelled from the spec: the kind-specific parameters and mutable answer
state of a question (spec section 3 and the evaluator table of section
4.3); the schema module `@/maps/schema` is missing from the sources.
`none` answers mean "unanswered". -/
inductive QuestionData where
  /-- center point, distance; boolean answer: hider within (`true`) or
  outside (`false`) the distance. -/
  | radius (center : Pt) (dist : Int) (answer : Option Bool)
  /-- two points A and B; boolean answer: hider closer to A (`true`) or to
  B (`false`). -/
  | thermometer (ptA ptB : Pt) (answer : Option Bool)
  /-- center point and candidate targets with declared distances; the
  answer selects one target. -/
  | tentacles (center : Pt) (targets : List (Pt × Int)) (chosen : Option Nat)
  /-- reference point; boolean answer: hider has the same nearest active
  POI as the reference (`true`) or not (`false`). -/
  | matching (reference : Pt) (answer : Option Bool)
  /-- reference point and distance bound; boolean answer: hider's distance
  to its nearest active POI is within the bound (`true`) or beyond it
  (`false`). -/
  | measuring (reference : Pt) (bound : Int) (answer : Option Bool)
deriving DecidableEq

/-- Whether a question's answer state is "unanswered" (spec section 4.3
edge-case policy). -/
def isUnanswered : QuestionData → Bool
  | .radius _ _ answer => answer.isNone
  | .thermometer _ _ answer => answer.isNone
  | .tentacles _ _ chosen => chosen.isNone
  | .matching _ answer => answer.isNone
  | .measuring _ _ answer => answer.isNone

/-- A question record: stable integer key, kind-specific data, and the
"finalized" flag consulted by planning mode (spec sections 3 and 4.4). -/
structure Question where
  key : Nat
  data : QuestionData
  finalized : Bool
deriving DecidableEq

/-- Modelled from the spec: one constraint evaluator step,
`apply(question, currentRegion, exclusionRegistry) -> nextRegion`
(spec section 4.3, evaluator table).  Unanswered questions are a no-op; a
Matching or Measuring question whose active POI set is empty is treated as
unanswered (the design choice left open in spec section 9). -/
def applyQuestion (q : Question) (r : Region) (reg : ExclusionRegistry) :
    Region :=
  match q.data with
  | .radius center dist answer =>
      match answer with
      | none => r
      | some true => r ∩ buffer center dist
      | some false => r \ buffer center dist
  | .thermometer ptA ptB answer =>
      match answer with
      | none => r
      | some true => r.filter (fun p => distSq p ptA ≤ distSq p ptB)
      | some false => r.filter (fun p => distSq p ptB ≤ distSq p ptA)
  | .tentacles center targets chosen =>
      match chosen with
      | none => r
      | some i =>
          match targets.get? i with
          | none => r
          | some td => r ∩ buffer center td.2
  | .matching reference answer =>
      match answer with
      | none => r
      | some b =>
          match nearestPoi reg reference with
          | none => r
          | some refPoi =>
              if b then r.filter (fun p => nearestPoi reg p = some refPoi)
              else r.filter (fun p => nearestPoi reg p ≠ some refPoi)
  | .measuring reference bound answer =>
      match answer with
      | none => r
      | some b =>
          match minPoiDistSq reg reference with
          | none => r
          | some _ =>
              if b then r.filter (fun p => poiWithinBound reg bound p = true)
              else r.filter (fun p => poiWithinBound reg bound p = false)

/-- The running state of one derivation pass: the working region and the
key of the first question that produced emptiness, if any. -/
structure FoldState where
  region : Region
  emptyAt : Option Nat
deriving DecidableEq

/-- Modelled from the spec: the Region Engine's fold (spec section 4.4) —
each question is folded through its evaluator in list order; in planning
mode only finalized constraints are folded; the engine records which
constraint first produced emptiness. -/
def foldQuestions (reg : ExclusionRegistry) (planning : Bool) :
    List Question → FoldState → FoldState
  | [], s => s
  | q :: rest, s =>
      if planning && !q.finalized then foldQuestions reg planning rest s
      else
        let r2 := applyQuestion q s.region reg
        let e2 :=
          if s.emptyAt.isSome then s.emptyAt
          else if r2 = ∅ ∧ s.region ≠ ∅ then some q.key
          else s.emptyAt
        foldQuestions reg planning rest ⟨r2, e2⟩

/-- The result envelope of a derivation pass (spec section 4.4):
`derive(...) -> {feasibleRegion, mask, emptyAt?}`. -/
structure DeriveResult where
  feasibleRegion : Region
  mask : Region
  emptyAt : Option Nat
deriving DecidableEq

/-- Modelled from the spec: the Region Engine's
`derive(basePolygon, questions, exclusionRegistry, planningMode)`
(spec section 4.4): fold every question over a clone of the base polygon,
then compute `mask = difference(outerFrame, feasibleRegion)`. -/
def derive (basePolygon : Region) (questions : List Question)
    (reg : ExclusionRegistry) (planning : Bool) : DeriveResult :=
  let s := foldQuestions reg planning questions ⟨basePolygon, none⟩
  ⟨s.region, outerFrame \ s.region, s.emptyAt⟩

/-- Every evaluator step shrinks (or keeps) the working region. -/
theorem applyQuestion_subset (q : Question) (r : Region)
    (reg : ExclusionRegistry) : applyQuestion q r reg ⊆ r := by
  rcases q with ⟨key, data, fin⟩
  unfold applyQuestion
  cases data <;> dsimp only <;> repeat' split
  all_goals
    first
      | exact Finset.Subset.refl _
      | exact Finset.inter_subset_left
      | exact Finset.sdiff_subset
      | exact Finset.filter_subset _ _

/-- Every evaluator step is monotone in the working region. -/
theorem applyQuestion_mono (q : Question) {r s : Region}
    (reg : ExclusionRegistry) (h : r ⊆ s) :
    applyQuestion q r reg ⊆ applyQuestion q s reg := by
  rcases q with ⟨key, data, fin⟩
  unfold applyQuestion
  cases data <;> dsimp only <;> repeat' split
  all_goals
    first
      | exact h
      | exact Finset.inter_subset_inter h (Finset.Subset.refl _)
      | exact Finset.sdiff_subset_sdiff h (Finset.Subset.refl _)
      | exact Finset.monotone_filter_left _ h

/-- The working region after the fold is contained in the region before. -/
theorem foldQuestions_region_subset (reg : ExclusionRegistry)
    (planning : Bool) (qs : List Question) (s : FoldState) :
    (foldQuestions reg planning qs s).region ⊆ s.region := by
  induction qs generalizing s with
  | nil => exact Finset.Subset.refl _
  | cons q rest ih =>
      unfold foldQuestions
      by_cases hskip : (planning && !q.finalized) = true
      · simp only [hskip, if_true]
        exact ih s
      · simp only [hskip, if_false]
        exact Finset.Subset.trans (ih _) (applyQuestion_subset q s.region reg)

/-- In planning mode a draft (non-finalized) question is skipped by the
fold. -/
theorem foldQuestions_cons_skip (reg : ExclusionRegistry) (planning : Bool)
    (q : Question) (rest : List Question) (s : FoldState)
    (hskip : (planning && !q.finalized) = true) :
    foldQuestions reg planning (q :: rest) s
      = foldQuestions reg planning rest s := by
  rw [foldQuestions, if_pos hskip]

/-- One evaluated fold step, with the let-bindings of `foldQuestions`
expanded. -/
theorem foldQuestions_cons_eval (reg : ExclusionRegistry) (planning : Bool)
    (q : Question) (rest : List Question) (s : FoldState)
    (hskip : ¬(planning && !q.finalized) = true) :
    foldQuestions reg planning (q :: rest) s
      = foldQuestions reg planning rest
          ⟨applyQuestion q s.region reg,
            if s.emptyAt.isSome then s.emptyAt
            else if applyQuestion q s.region reg = ∅ ∧ s.region ≠ ∅ then
              some q.key
            else s.emptyAt⟩ := by
  rw [foldQuestions, if_neg hskip]

/-- Folding a concatenated list is folding the two halves in sequence. -/
theorem foldQuestions_append (reg : ExclusionRegistry) (planning : Bool)
    (l₁ l₂ : List Question) (s : FoldState) :
    foldQuestions reg planning (l₁ ++ l₂) s
      = foldQuestions reg planning l₂ (foldQuestions reg planning l₁ s) := by
  induction l₁ generalizing s with
  | nil => rfl
  | cons q rest ih =>
      rw [List.cons_append]
      by_cases hskip : (planning && !q.finalized) = true
      · rw [foldQuestions_cons_skip _ _ _ _ _ hskip,
          foldQuestions_cons_skip _ _ _ _ _ hskip, ih]
      · rw [foldQuestions_cons_eval _ _ _ _ _ hskip,
          foldQuestions_cons_eval _ _ _ _ _ hskip, ih]

/-- An evaluator applied to a question in the "unanswered" state returns
the input region unchanged (spec section 4.3 edge-case policy). -/
theorem applyQuestion_unanswered (q : Question) (r : Region)
    (reg : ExclusionRegistry) (h : isUnanswered q.data = true) :
    applyQuestion q r reg = r := by
  rcases q with ⟨key, data, fin⟩
  unfold applyQuestion
  cases data with
  | radius center dist answer =>
      cases answer with
      | none => rfl
      | some b => simp [isUnanswered] at h
  | thermometer ptA ptB answer =>
      cases answer with
      | none => rfl
      | some b => simp [isUnanswered] at h
  | tentacles center targets chosen =>
      cases chosen with
      | none => rfl
      | some i => simp [isUnanswered] at h
  | matching reference answer =>
      cases answer with
      | none => rfl
      | some b => simp [isUnanswered] at h
  | measuring reference bound answer =>
      cases answer with
      | none => rfl
      | some b => simp [isUnanswered] at h

/-- A fold step on an unanswered question changes nothing: neither the
working region nor the recorded emptiness key. -/
theorem foldQuestions_unanswered_cons (reg : ExclusionRegistry)
    (planning : Bool) (q : Question) (rest : List Question) (s : FoldState)
    (hq : isUnanswered q.data = true) :
    foldQuestions reg planning (q :: rest) s
      = foldQuestions reg planning rest s := by
  by_cases hskip : (planning && !q.finalized) = true
  · exact foldQuestions_cons_skip _ _ _ _ _ hskip
  · rw [foldQuestions_cons_eval _ _ _ _ _ hskip]
    rw [applyQuestion_unanswered q s.region reg hq]
    have he : (if s.emptyAt.isSome then s.emptyAt
        else if s.region = ∅ ∧ s.region ≠ ∅ then some q.key
        else s.emptyAt) = s.emptyAt := by
      split
      · rfl
      · rw [if_neg (fun hc => hc.2 hc.1)]
    rw [he]

/-- The region component of the fold does not depend on the incoming
`emptyAt` diagnostic. -/
theorem foldQuestions_region_congr (reg : ExclusionRegistry)
    (planning : Bool) (qs : List Question) (r : Region)
    (e e' : Option Nat) :
    (foldQuestions reg planning qs ⟨r, e⟩).region
      = (foldQuestions reg planning qs ⟨r, e'⟩).region := by
  induction qs generalizing r e e' with
  | nil => rfl
  | cons q rest ih =>
      by_cases hskip : (planning && !q.finalized) = true
      · rw [foldQuestions_cons_skip _ _ _ _ _ hskip,
          foldQuestions_cons_skip _ _ _ _ _ hskip]
        exact ih r e e'
      · rw [foldQuestions_cons_eval _ _ _ _ _ hskip,
          foldQuestions_cons_eval _ _ _ _ _ hskip]
        exact ih _ _ _

/-- The fold is monotone in the working region. -/
theorem foldQuestions_region_mono (reg : ExclusionRegistry)
    (planning : Bool) (qs : List Question) {r s : Region} (h : r ⊆ s)
    (e e' : Option Nat) :
    (foldQuestions reg planning qs ⟨r, e⟩).region
      ⊆ (foldQuestions reg planning qs ⟨s, e'⟩).region := by
  induction qs generalizing r s e e' with
  | nil => exact h
  | cons q rest ih =>
      by_cases hskip : (planning && !q.finalized) = true
      · rw [foldQuestions_cons_skip _ _ _ _ _ hskip,
          foldQuestions_cons_skip _ _ _ _ _ hskip]
        exact ih h e e'
      · rw [foldQuestions_cons_eval _ _ _ _ _ hskip,
          foldQuestions_cons_eval _ _ _ _ _ hskip]
        exact ih (applyQuestion_mono q reg h) _ _

/-- While the working region stays nonempty, no emptiness key gets
recorded. -/
theorem foldQuestions_emptyAt_none (reg : ExclusionRegistry)
    (planning : Bool) (qs : List Question) (s : FoldState)
    (hs : s.emptyAt = none)
    (h : (foldQuestions reg planning qs s).region ≠ ∅) :
    (foldQuestions reg planning qs s).emptyAt = none := by
  induction qs generalizing s with
  | nil => exact hs
  | cons q rest ih =>
      by_cases hskip : (planning && !q.finalized) = true
      · rw [foldQuestions_cons_skip _ _ _ _ _ hskip] at h ⊢
        exact ih s hs h
      · rw [foldQuestions_cons_eval _ _ _ _ _ hskip] at h ⊢
        have hr2 : applyQuestion q s.region reg ≠ ∅ := by
          intro hc
          apply h
          have hcg := foldQuestions_region_congr reg planning rest
            (applyQuestion q s.region reg)
            (if s.emptyAt.isSome then s.emptyAt
              else if applyQuestion q s.region reg = ∅ ∧ s.region ≠ ∅ then
                some q.key
              else s.emptyAt) none
          rw [hcg, hc]
          exact Finset.subset_empty.mp
            (foldQuestions_region_subset reg planning rest ⟨∅, none⟩)
        refine ih _ ?_ h
        dsimp only
        rw [hs]
        simp only [Option.isSome_none, Bool.false_eq_true, if_false]
        rw [if_neg (fun hc => hr2 hc.1)]

/-- The subset invariant of spec section 8, claim C1: the feasible region a
derivation pass produces is a subset of the base polygon — the difference
`feasibleRegion \ basePolygon` is empty, for every base polygon, question
list, registry and planning mode. -/
theorem feasibleRegion_subset_base (basePolygon : Region)
    (questions : List Question) (reg : ExclusionRegistry) (planning : Bool) :
    (derive basePolygon questions reg planning).feasibleRegion \ basePolygon
      = ∅ := by
  rw [Finset.sdiff_eq_empty_iff_subset]
  exact foldQuestions_region_subset reg planning questions ⟨basePolygon, none⟩

/-- A registry with no points of interest, used by concrete witnesses. -/
def emptyRegistry : ExclusionRegistry := ⟨[], []⟩

/-- The mask complement law of spec section 8, claim C2: for every valid
base polygon (one enclosed by the fixed outer frame) the mask is the exact
complement of the feasible region within the frame — their union is the
frame and their intersection is empty. -/
theorem mask_complement_law (basePolygon : Region)
    (questions : List Question) (reg : ExclusionRegistry) (planning : Bool)
    (h : basePolygon ⊆ outerFrame) :
    (derive basePolygon questions reg planning).feasibleRegion ∪
        (derive basePolygon questions reg planning).mask = outerFrame ∧
      (derive basePolygon questions reg planning).feasibleRegion ∩
        (derive basePolygon questions reg planning).mask = ∅ := by
  have hsub : (derive basePolygon questions reg planning).feasibleRegion
      ⊆ outerFrame :=
    Finset.Subset.trans
      (foldQuestions_region_subset reg planning questions ⟨basePolygon, none⟩)
      h
  constructor
  · exact Finset.union_sdiff_of_subset hsub
  · exact Finset.inter_sdiff_self _ _

/-- Witness for the mask complement law at a concrete derivation: a disc
base polygon and one answered radius question. -/
theorem mask_complement_law_witness :
    (derive (buffer (0, 0) 3)
          [⟨1, QuestionData.radius (0, 0) 2 (some true), true⟩]
          emptyRegistry false).feasibleRegion ∪
        (derive (buffer (0, 0) 3)
          [⟨1, QuestionData.radius (0, 0) 2 (some true), true⟩]
          emptyRegistry false).mask = outerFrame ∧
      (derive (buffer (0, 0) 3)
          [⟨1, QuestionData.radius (0, 0) 2 (some true), true⟩]
          emptyRegistry false).feasibleRegion ∩
        (derive (buffer (0, 0) 3)
          [⟨1, QuestionData.radius (0, 0) 2 (some true), true⟩]
          emptyRegistry false).mask = ∅ :=
  mask_complement_law (buffer (0, 0) 3)
    [⟨1, QuestionData.radius (0, 0) 2 (some true), true⟩]
    emptyRegistry false (Finset.filter_subset _ _)

/-- The no-op invariant of spec section 8, claim C3: inserting an
unanswered question anywhere in the question list leaves the derived
feasible region unchanged. -/
theorem unanswered_question_noop (basePolygon : Region)
    (qs₁ qs₂ : List Question) (q : Question) (reg : ExclusionRegistry)
    (planning : Bool) (h : isUnanswered q.data = true) :
    (derive basePolygon (qs₁ ++ q :: qs₂) reg planning).feasibleRegion
      = (derive basePolygon (qs₁ ++ qs₂) reg planning).feasibleRegion := by
  simp only [derive]
  rw [foldQuestions_append, foldQuestions_append,
    foldQuestions_unanswered_cons reg planning q qs₂ _ h]

/-- Witness for the no-op invariant: deriving with one unanswered radius
question equals deriving with no questions. -/
theorem unanswered_question_noop_witness :
    (derive outerFrame [⟨7, QuestionData.radius (0, 0) 2 none, true⟩]
        emptyRegistry false).feasibleRegion
      = (derive outerFrame [] emptyRegistry false).feasibleRegion :=
  unanswered_question_noop outerFrame [] []
    ⟨7, QuestionData.radius (0, 0) 2 none, true⟩ emptyRegistry false
    (by decide)

/-- Monotonic narrowing, spec section 8, claim C5: inserting an answered
question anywhere in the question list never increases the area
(cardinality) of the derived feasible region. -/
theorem monotonic_narrowing (basePolygon : Region)
    (qs₁ qs₂ : List Question) (q : Question) (reg : ExclusionRegistry)
    (planning : Bool) (_h : isUnanswered q.data = false) :
    ((derive basePolygon (qs₁ ++ q :: qs₂) reg planning).feasibleRegion).card
      ≤ ((derive basePolygon (qs₁ ++ qs₂) reg planning).feasibleRegion).card
    := by
  apply Finset.card_le_card
  simp only [derive]
  rw [foldQuestions_append, foldQuestions_append]
  by_cases hskip : (planning && !q.finalized) = true
  · rw [foldQuestions_cons_skip _ _ _ _ _ hskip]
  · rw [foldQuestions_cons_eval _ _ _ _ _ hskip]
    exact foldQuestions_region_mono reg planning qs₂
      (applyQuestion_subset q
        (foldQuestions reg planning qs₁ ⟨basePolygon, none⟩).region reg) _ _

/-- Witness for monotonic narrowing: one answered radius question against
no questions. -/
theorem monotonic_narrowing_witness :
    ((derive outerFrame [⟨3, QuestionData.radius (0, 0) 2 (some true), true⟩]
        emptyRegistry false).feasibleRegion).card
      ≤ ((derive outerFrame [] emptyRegistry false).feasibleRegion).card :=
  monotonic_narrowing outerFrame [] []
    ⟨3, QuestionData.radius (0, 0) 2 (some true), true⟩ emptyRegistry false
    (by decide)

/-- Claim C4: if a folded question turns a nonempty working region empty,
the derivation still returns normally — the empty region is the result and
the engine records that question's key as `emptyAt` in the result
envelope. -/
theorem empty_region_recorded (basePolygon : Region) (qs : List Question)
    (q : Question) (reg : ExclusionRegistry) (planning : Bool)
    (hfold : ¬(planning && !q.finalized) = true)
    (h1 : (derive basePolygon qs reg planning).feasibleRegion ≠ ∅)
    (h2 : applyQuestion q
      (derive basePolygon qs reg planning).feasibleRegion reg = ∅) :
    (derive basePolygon (qs ++ [q]) reg planning).feasibleRegion = ∅ ∧
      (derive basePolygon (qs ++ [q]) reg planning).emptyAt = some q.key
    := by
  simp only [derive] at h1 h2 ⊢
  rw [foldQuestions_append]
  set s1 := foldQuestions reg planning qs ⟨basePolygon, none⟩ with hs1
  have hnone : s1.emptyAt = none :=
    foldQuestions_emptyAt_none reg planning qs ⟨basePolygon, none⟩ rfl h1
  rw [foldQuestions_cons_eval _ _ _ _ _ hfold]
  rw [foldQuestions]
  constructor
  · exact h2
  · show (if s1.emptyAt.isSome then s1.emptyAt
        else if applyQuestion q s1.region reg = ∅ ∧ s1.region ≠ ∅ then
          some q.key
        else s1.emptyAt) = some q.key
    rw [hnone]
    simp only [Option.isSome_none, Bool.false_eq_true, if_false]
    rw [if_pos ⟨h2, h1⟩]

/-- Witness for C4, the scenario of spec section 8: two answered radius
questions whose discs are disjoint — the feasible region comes out empty
and `emptyAt` is the second question's key. -/
theorem empty_region_recorded_witness :
    (derive outerFrame
        [⟨1, QuestionData.radius (0, 0) 2 (some true), true⟩,
          ⟨2, QuestionData.radius (5, 0) 2 (some true), true⟩]
        emptyRegistry false).feasibleRegion = ∅ ∧
      (derive outerFrame
        [⟨1, QuestionData.radius (0, 0) 2 (some true), true⟩,
          ⟨2, QuestionData.radius (5, 0) 2 (some true), true⟩]
        emptyRegistry false).emptyAt = some 2 :=
  empty_region_recorded outerFrame
    [⟨1, QuestionData.radius (0, 0) 2 (some true), true⟩]
    ⟨2, QuestionData.radius (5, 0) 2 (some true), true⟩
    emptyRegistry false (by decide) (by decide) (by decide)

/-- Modelled from the spec: a raw question payload as fed to `addQuestion`
by the UI or clipboard import (spec section 6) — a kind tag plus the
kind-generic coordinates, each possibly missing.  The concrete schema
module `@/maps/schema` is missing from the sources. -/
structure RawQuestion where
  id : Option String
  lat : Option Int
  lng : Option Int
deriving DecidableEq

/-- A schema validation failure naming the offending field (spec sections
6 and 7). -/
structure SchemaError where
  field : String
deriving DecidableEq

/-- The five question kind tags accepted by the schema
(`src/components/Map.tsx` context menu, `src/components/QuestionSidebar.tsx`). -/
def questionKindIds : List String :=
  ["radius", "thermometer", "tentacles", "matching", "measuring"]

/-- Modelled from the spec: whether one named field of a raw payload
satisfies the schema. -/
def RawQuestion.fieldOk (raw : RawQuestion) (f : String) : Bool :=
  if f = "id" then
    match raw.id with
    | none => false
    | some kind => questionKindIds.contains kind
  else if f = "lat" then raw.lat.isSome
  else if f = "lng" then raw.lng.isSome
  else true

/-- Modelled from the spec: whether a raw payload satisfies the question
schema as a whole. -/
def RawQuestion.wellFormed (raw : RawQuestion) : Bool :=
  raw.fieldOk "id" && raw.fieldOk "lat" && raw.fieldOk "lng"

/-- Modelled from the spec: the kind-specific data the schema builds from a
parsed payload; omitted parameters take schema defaults and answers start
unanswered. -/
def defaultQuestionData (kind : String) (lat lng : Int) : QuestionData :=
  if kind = "radius" then .radius (lat, lng) 2 none
  else if kind = "thermometer" then .thermometer (lat, lng) (lat + 1, lng) none
  else if kind = "tentacles" then .tentacles (lat, lng) [] none
  else if kind = "matching" then .matching (lat, lng) none
  else .measuring (lat, lng) 2 none

/-- Modelled from the spec: `questionSchema.parse` — on malformed input it
fails with a `SchemaError` naming the offending field (spec section 6);
on success it produces the question with its creation-time key. -/
def questionSchemaParse (raw : RawQuestion) (key : Nat) :
    Except SchemaError Question :=
  match raw.id with
  | none => .error ⟨"id"⟩
  | some kind =>
      if questionKindIds.contains kind then
        match raw.lat, raw.lng with
        | none, _ => .error ⟨"lat"⟩
        | some _, none => .error ⟨"lng"⟩
        | some lat, some lng =>
            .ok ⟨key, defaultQuestionData kind lat lng, true⟩
      else .error ⟨"id"⟩

/-- The stored question list plus the counter for creation-time keys
(spec section 3: keys are unique and assigned at creation). -/
structure QuestionStore where
  questionList : List Question
  nextKey : Nat
deriving DecidableEq

/-- `addQuestion` of `src/lib/context.ts` (line 110): parse the payload
with the question schema and push the result onto the stored list.  The
parse throws before the push executes, so a schema failure propagates to
the caller with the stored list untouched; the model returns the error as
a value next to the (unchanged) store. -/
def addQuestionOp (st : QuestionStore) (raw : RawQuestion) :
    QuestionStore × Option SchemaError :=
  match questionSchemaParse raw st.nextKey with
  | .error e => (st, some e)
  | .ok q => (⟨st.questionList ++ [q], st.nextKey + 1⟩, none)

/-- Claim C6: adding a malformed question payload fails with a schema
error naming a field the payload really does not satisfy, and the stored
question list is left unchanged by the failed add. -/
theorem malformed_add_rejected (st : QuestionStore) (raw : RawQuestion)
    (h : raw.wellFormed = false) :
    ∃ e : SchemaError, questionSchemaParse raw st.nextKey = .error e ∧
      raw.fieldOk e.field = false ∧
      addQuestionOp st raw = (st, some e) := by
  rcases raw with ⟨oid, olat, olng⟩
  cases oid with
  | none =>
      exact ⟨⟨"id"⟩, rfl, rfl, rfl⟩
  | some kind =>
      by_cases hk : kind ∈ questionKindIds
      · cases olat with
        | none =>
            refine ⟨⟨"lat"⟩, ?_, rfl, ?_⟩
            · simp [questionSchemaParse, hk]
            · simp [addQuestionOp, questionSchemaParse, hk]
        | some lat =>
            cases olng with
            | none =>
                refine ⟨⟨"lng"⟩, ?_, rfl, ?_⟩
                · simp [questionSchemaParse, hk]
                · simp [addQuestionOp, questionSchemaParse, hk]
            | some lng =>
                exfalso
                simp [RawQuestion.wellFormed, RawQuestion.fieldOk, hk] at h
      · refine ⟨⟨"id"⟩, ?_, ?_, ?_⟩
        · simp [questionSchemaParse, hk]
        · simp [RawQuestion.fieldOk, hk]
        · simp [addQuestionOp, questionSchemaParse, hk]

/-- Witness for C6: a payload with an unknown kind tag is rejected, the
error names the `id` field, and a concrete store is unchanged. -/
theorem malformed_add_rejected_witness :
    ∃ e : SchemaError,
      questionSchemaParse ⟨some "bogus", some 0, some 0⟩
          (QuestionStore.nextKey ⟨[], 5⟩) = .error e ∧
        RawQuestion.fieldOk ⟨some "bogus", some 0, some 0⟩ e.field = false ∧
        addQuestionOp ⟨[], 5⟩ ⟨some "bogus", some 0, some 0⟩
          = (⟨[], 5⟩, some e) :=
  malformed_add_rejected ⟨[], 5⟩ ⟨some "bogus", some 0, some 0⟩ (by decide)

/-- The busy-flag state of `refreshQuestions` (`src/components/Map.tsx`
lines 67-72): the `isLoading` atom, plus a count of derivation passes
currently executing. -/
structure BusyState where
  isLoading : Bool
  inFlight : Nat
deriving DecidableEq

/-- One scheduler event of the busy-flag discipline.  `request snapshot`
is an invocation of `refreshQuestions` whose closure captured `$isLoading
= snapshot` at render time (`Map.tsx` line 52); the guard on line 70 tests
that captured snapshot, not the atom's current value.  The layer-watchdog
interval (lines 337-354, dependency list `[map]`) keeps invoking the
closure from the render at which the map was set, so its snapshot stays
`false` while later passes run.  `finish` is the `finally` block of a pass
(line 171). -/
inductive RefreshEvent where
  | request (snapshot : Bool)
  | finish
deriving DecidableEq

/-- The effect of one event: an admitted request (snapshot clear) raises
the flag and starts a pass; a rejected request changes nothing; a finish
lowers the flag and retires a pass. -/
def busyStep (st : BusyState) : RefreshEvent → BusyState
  | .request snapshot => if snapshot then st else ⟨true, st.inFlight + 1⟩
  | .finish => ⟨false, st.inFlight - 1⟩

/-- Run a sequence of scheduler events from a starting state. -/
def busyRun (st : BusyState) (evs : List RefreshEvent) : BusyState :=
  evs.foldl busyStep st

/-- Counterexample to claim C7: from the idle state, an admitted pass sets
the busy flag, yet a second request holding a stale `false` snapshot (the
interval closure) is admitted too — two derivation passes are in flight at
once, so a request arriving while the flag is set did perform geometric
work. -/
theorem stale_snapshot_two_passes_in_flight :
    (busyRun ⟨false, 0⟩ [RefreshEvent.request false]).isLoading = true ∧
      (busyRun ⟨false, 0⟩
        [RefreshEvent.request false, RefreshEvent.request false]).inFlight
        = 2 :=
  ⟨rfl, rfl⟩

/-- The exclusivity invariant the spec demands of the busy flag: at most
one pass in flight, and none when the flag is clear. -/
def busyInv (st : BusyState) : Prop :=
  st.inFlight ≤ 1 ∧ (st.isLoading = false → st.inFlight = 0)

/-- Claim C7 as the code enforces it: the guard rejects a request by the
`$isLoading` snapshot its closure captured, so a request whose snapshot is
set performs no geometric work and changes nothing, and every step whose
request snapshot agrees with the live flag at arrival (and whose finishes
retire a running pass) preserves the at-most-one-in-flight invariant.
Only a stale-snapshot request — the interval closure — escapes the
guard. -/
theorem accurate_snapshot_exclusive (st : BusyState) (ev : RefreshEvent)
    (hinv : busyInv st)
    (hacc : ∀ snap, ev = .request snap → snap = st.isLoading)
    (hfin : ev = .finish → 1 ≤ st.inFlight) :
    busyInv (busyStep st ev) ∧
      (st.isLoading = true →
        ∀ snap, ev = .request snap → busyStep st ev = st) := by
  cases ev with
  | request snap =>
      have hsnap : snap = st.isLoading := hacc snap rfl
      cases hload : st.isLoading with
      | true =>
          have : snap = true := by rw [hsnap, hload]
          rw [busyStep, if_pos this]
          exact ⟨hinv, fun _ _ h => rfl⟩
      | false =>
          have hz : st.inFlight = 0 := hinv.2 hload
          have : ¬ snap = true := by
            rw [hsnap, hload]
            exact Bool.false_ne_true
          rw [busyStep, if_neg this]
          refine ⟨⟨?_, ?_⟩, ?_⟩
          · rw [hz]
          · intro hcontra
            exact Bool.noConfusion hcontra
          · intro htrue
            exact Bool.noConfusion htrue
  | finish =>
      have h1 : 1 ≤ st.inFlight := hfin rfl
      have h2 : st.inFlight = 1 := le_antisymm hinv.1 h1
      rw [busyStep]
      refine ⟨⟨?_, ?_⟩, ?_⟩
      · rw [h2]
        decide
      · intro _
        rw [h2]
      · intro _ snap h
        cases h

/-- Witness for the accurate-snapshot exclusivity theorem: a request whose
snapshot correctly reflects the raised flag is rejected and preserves the
invariant. -/
theorem accurate_snapshot_exclusive_witness :
    busyInv (busyStep ⟨true, 1⟩ (RefreshEvent.request true)) ∧
      ((⟨true, 1⟩ : BusyState).isLoading = true →
        ∀ snap, RefreshEvent.request true = RefreshEvent.request snap →
          busyStep ⟨true, 1⟩ (RefreshEvent.request true) = ⟨true, 1⟩) :=
  accurate_snapshot_exclusive ⟨true, 1⟩ (RefreshEvent.request true)
    ⟨by decide, by decide⟩ (by decide) (by decide)

/-- An OpenStreetMap place as handled by the place picker; `osmId` is its
identity (`properties.osm_id`). -/
structure GeoPlace where
  osmId : Nat
deriving DecidableEq

/-- One entry of `additionalMapGeoLocations` (`src/lib/context.ts`): a
place plus its `added` (addition versus subtraction mode) and `base`
flags. -/
structure ExtraLocation where
  location : GeoPlace
  added : Bool
  base : Bool
deriving DecidableEq

/-- The configured map locations: `mapGeoLocation` (the base location)
plus the additional list. -/
structure PlaceState where
  mapGeoLocation : GeoPlace
  additional : List ExtraLocation
deriving DecidableEq

/-- `addedLocations[0].base = true` of `src/components/PlacePicker.tsx`
line 209: the first added-mode entry has its `base` flag set; the array
element is mutated in place, so the change is visible to the subsequent
filter over the same array. -/
def markFirstAdded : List ExtraLocation → List ExtraLocation
  | [] => []
  | x :: xs =>
      if x.added then { x with base := true } :: xs
      else x :: markFirstAdded xs

/-- Removing the base location row (`src/components/PlacePicker.tsx` lines
201-228): compute the added-mode entries; when at least one exists, flag
the first, drop every base-flagged entry from the additional list, and
promote the first added entry's place to `mapGeoLocation`; otherwise show
an error toast and return early, changing nothing.  The `Bool` reports
success. -/
def removeBaseLocation (st : PlaceState) : PlaceState × Bool :=
  match (st.additional.filter (fun x => x.added)).head? with
  | none => (st, false)
  | some promoted =>
      (⟨promoted.location,
        (markFirstAdded st.additional).filter (fun x => !x.base)⟩, true)

/-- Drop the first added-mode entry of a list, keeping everything else:
the intended net effect of a successful base-location removal. -/
def removeFirstAdded : List ExtraLocation → List ExtraLocation
  | [] => []
  | x :: xs => if x.added then xs else x :: removeFirstAdded xs

/-- The intended result of removing the base location: refuse when no
added-mode entry exists, else promote the first added-mode entry and drop
it from the additional list. -/
def removeBaseLocationSpec (st : PlaceState) : PlaceState × Bool :=
  match (st.additional.filter (fun x => x.added)).head? with
  | none => (st, false)
  | some promoted =>
      (⟨promoted.location, removeFirstAdded st.additional⟩, true)

/-- Filtering on a clear `base` flag keeps a list whose entries all have
the flag clear. -/
theorem filter_not_base_eq_self (l : List ExtraLocation)
    (h : ∀ x ∈ l, x.base = false) : l.filter (fun x => !x.base) = l := by
  refine List.filter_eq_self.mpr ?_
  intro a ha
  rw [h a ha]
  rfl

/-- Under the invariant that no additional entry carries the `base` flag,
the mark-then-filter sequence of the source equals dropping the first
added-mode entry. -/
theorem markFirstAdded_filter (l : List ExtraLocation)
    (h : ∀ x ∈ l, x.base = false) :
    (markFirstAdded l).filter (fun x => !x.base) = removeFirstAdded l := by
  induction l with
  | nil => rfl
  | cons x xs ih =>
      by_cases hx : x.added = true
      · rw [markFirstAdded, if_pos hx, removeFirstAdded, if_pos hx]
        rw [List.filter_cons_of_neg (by simp)]
        exact filter_not_base_eq_self xs
          (fun a ha => h a (List.mem_cons_of_mem _ ha))
      · rw [markFirstAdded, if_neg hx, removeFirstAdded, if_neg hx]
        rw [List.filter_cons_of_pos
          (by rw [h x (List.mem_cons_self _ _)]; rfl)]
        rw [ih (fun a ha => h a (List.mem_cons_of_mem _ ha))]

/-- Every entry surviving `removeFirstAdded` was in the original list. -/
theorem removeFirstAdded_mem (l : List ExtraLocation) (x : ExtraLocation)
    (hx : x ∈ removeFirstAdded l) : x ∈ l := by
  induction l with
  | nil => exact absurd hx (List.not_mem_nil x)
  | cons y ys ih =>
      rw [removeFirstAdded] at hx
      by_cases hy : y.added = true
      · rw [if_pos hy] at hx
        exact List.mem_cons_of_mem _ hx
      · rw [if_neg hy] at hx
        rcases List.mem_cons.mp hx with h1 | h2
        · rw [h1]
          exact List.mem_cons_self _ _
        · exact List.mem_cons_of_mem _ (ih h2)

/-- Claim C10: under the invariant that the base location is the only
base-flagged location, removing the base location behaves as specified —
it is refused (state unchanged) exactly when no added-mode additional
location exists, otherwise the first added-mode location is promoted to
base and dropped from the additional list — and the invariant is
preserved, so exactly one base location remains. -/
theorem base_location_removal (st : PlaceState)
    (hinv : ∀ x ∈ st.additional, x.base = false) :
    removeBaseLocation st = removeBaseLocationSpec st ∧
      ∀ x ∈ (removeBaseLocation st).1.additional, x.base = false := by
  have hmain : removeBaseLocation st = removeBaseLocationSpec st := by
    rw [removeBaseLocation, removeBaseLocationSpec]
    cases (st.additional.filter (fun x => x.added)).head? with
    | none => rfl
    | some promoted => rw [markFirstAdded_filter st.additional hinv]
  refine ⟨hmain, ?_⟩
  rw [hmain, removeBaseLocationSpec]
  cases (st.additional.filter (fun x => x.added)).head? with
  | none => exact hinv
  | some promoted =>
      intro x hx
      exact hinv x (removeFirstAdded_mem st.additional x hx)

/-- Witness for C10 at a concrete state: one added-mode extra location
exists, so removing the base promotes it and keeps the invariant. -/
theorem base_location_removal_witness :
    removeBaseLocation ⟨⟨1⟩, [⟨⟨2⟩, true, false⟩, ⟨⟨3⟩, false, false⟩]⟩
        = removeBaseLocationSpec
          ⟨⟨1⟩, [⟨⟨2⟩, true, false⟩, ⟨⟨3⟩, false, false⟩]⟩ ∧
      ∀ x ∈ (removeBaseLocation
          ⟨⟨1⟩, [⟨⟨2⟩, true, false⟩, ⟨⟨3⟩, false, false⟩]⟩).1.additional,
        x.base = false :=
  base_location_removal ⟨⟨1⟩, [⟨⟨2⟩, true, false⟩, ⟨⟨3⟩, false, false⟩]⟩
    (by decide)

/-- The boundary-lookup cache keyed by query (spec section 3,
`CacheEntry`). -/
abbrev BoundaryCache := List (String × Region)

/-- The nanostore state a derivation pass of `refreshQuestions`
(`src/components/Map.tsx`) reads and writes: the busy flag, the lookup
cache, the resolved and drawn base polygons, and the published mask
(`questionFinishedMapData`). -/
structure MapState where
  isLoading : Bool
  cache : BoundaryCache
  mapGeoJSON : Option Region
  polyGeoJSON : Option Region
  questionFinishedMapData : Option Region
deriving DecidableEq

/-- Modelled from the spec: `determineMapBoundaries` of `@/maps/api`
(missing from the sources) — consult the lookup cache by query; on a miss
perform the external place lookup (its outcome is a parameter of this
model), store the result, and return it; an errored or empty lookup fails
with `BoundaryUnresolved` (spec section 4.2). -/
def determineMapBoundariesModel (cache : BoundaryCache) (query : String)
    (external : Except String Region) :
    Except String (Region × BoundaryCache) :=
  match List.lookup query cache with
  | some r => .ok (r, cache)
  | none =>
      match external with
      | .ok r => .ok (r, (query, r) :: cache)
      | .error e => .error e

/-- The base-polygon resolution step of a pass (`refreshQuestions` lines
78-98): use the current resolved polygon if set, else promote the drawn
polygon into `mapGeoJSON`, else resolve externally; a failed lookup is
caught and only logged, leaving no polygon and the stores untouched. -/
def resolveBase (st : MapState) (query : String)
    (external : Except String Region) : Option Region × MapState :=
  match st.mapGeoJSON with
  | some g => (some g, st)
  | none =>
      match st.polyGeoJSON with
      | some p => (some p, { st with mapGeoJSON := some p })
      | none =>
          match determineMapBoundariesModel st.cache query external with
          | .ok rc =>
              (some rc.1, { st with mapGeoJSON := some rc.1, cache := rc.2 })
          | .error _ => (none, st)

/-- The body of a derivation pass after the cache-clear step
(`refreshQuestions` lines 78-172): resolve the base polygon, fold the
questions, publish the holed mask, and release the busy flag in the
`finally` block.  When no base polygon could be resolved the fold throws
on its undefined input; the `catch` swallows the error, so the pass ends
having changed nothing but the flag. -/
def refreshAfterCacheClear (st : MapState) (qs : List Question)
    (query : String) (external : Except String Region)
    (reg : ExclusionRegistry) (planning : Bool) : MapState :=
  match resolveBase st query external with
  | (none, st1) => { st1 with isLoading := false }
  | (some base, st1) =>
      { st1 with
        questionFinishedMapData := some (derive base qs reg planning).mask,
        isLoading := false }

/-- `refreshQuestions` of `src/components/Map.tsx` (lines 67-173): return
immediately when the render-captured loading snapshot is set; otherwise
raise the busy flag, clear the whole lookup cache when the question list
is empty (lines 74-76), and run the pass body. -/
def refreshQuestionsModel (st : MapState) (snapshotLoading : Bool)
    (qs : List Question) (query : String) (external : Except String Region)
    (reg : ExclusionRegistry) (planning : Bool) : MapState :=
  if snapshotLoading then st
  else
    refreshAfterCacheClear
      { st with
        isLoading := true,
        cache := if qs.isEmpty then [] else st.cache }
      qs query external reg planning

/-- Claim C9: a derivation pass starting with an empty question list runs
its body from a state whose lookup cache has been cleared (before the
boundary resolution step), and consequently the cache after the pass holds
at most the single entry that pass's own lookup wrote — no stale entry
survives. -/
theorem empty_questions_clears_cache (st : MapState) (query : String)
    (external : Except String Region) (reg : ExclusionRegistry)
    (planning : Bool) :
    refreshQuestionsModel st false [] query external reg planning
        = refreshAfterCacheClear { st with isLoading := true, cache := [] }
          [] query external reg planning ∧
      ((refreshQuestionsModel st false [] query external reg
          planning).cache = [] ∨
        ∃ r : Region, external = .ok r ∧
          (refreshQuestionsModel st false [] query external reg
            planning).cache = [(query, r)]) := by
  refine ⟨rfl, ?_⟩
  rw [refreshQuestionsModel]
  simp only [Bool.false_eq_true, if_false, List.isEmpty_nil, if_true]
  rw [refreshAfterCacheClear, resolveBase]
  cases st.mapGeoJSON with
  | some g => exact Or.inl rfl
  | none =>
      cases st.polyGeoJSON with
      | some p => exact Or.inl rfl
      | none =>
          rw [determineMapBoundariesModel.eq_def]
          cases external with
          | ok r => exact Or.inr ⟨r, rfl, rfl⟩
          | error e => exact Or.inl rfl

/-- Claim C8: when no base polygon is configured and the external boundary
lookup fails, the pass ends as a value — the busy flag is released, the
polygon stores and the published mask are untouched — and a subsequent
pass whose lookup succeeds derives normally. -/
theorem boundary_unresolved_recovers (st : MapState) (qs : List Question)
    (query msg : String) (reg : ExclusionRegistry) (planning : Bool)
    (r : Region) (hqs : qs ≠ [])
    (hmap : st.mapGeoJSON = none) (hpoly : st.polyGeoJSON = none)
    (hmiss : List.lookup query st.cache = none) :
    (refreshQuestionsModel st false qs query (.error msg) reg
        planning).isLoading = false ∧
      (refreshQuestionsModel st false qs query (.error msg) reg
        planning).mapGeoJSON = none ∧
      (refreshQuestionsModel st false qs query (.error msg) reg
        planning).polyGeoJSON = none ∧
      (refreshQuestionsModel st false qs query (.error msg) reg
        planning).questionFinishedMapData = st.questionFinishedMapData ∧
      (refreshQuestionsModel
          (refreshQuestionsModel st false qs query (.error msg) reg planning)
          false qs query (.ok r) reg planning).questionFinishedMapData
        = some (derive r qs reg planning).mask ∧
      (refreshQuestionsModel
          (refreshQuestionsModel st false qs query (.error msg) reg planning)
          false qs query (.ok r) reg planning).isLoading = false := by
  have hempty : qs.isEmpty = false := by
    cases qs with
    | nil => exact absurd rfl hqs
    | cons q rest => rfl
  have hfail : refreshQuestionsModel st false qs query (.error msg) reg
      planning
      = { st with isLoading := false } := by
    rw [refreshQuestionsModel]
    simp only [Bool.false_eq_true, if_false, hempty]
    rw [refreshAfterCacheClear, resolveBase]
    rw [hmap, hpoly, determineMapBoundariesModel.eq_def, hmiss]
  rw [hfail]
  refine ⟨rfl, hmap, hpoly, rfl, ?_, ?_⟩ <;>
    · rw [refreshQuestionsModel]
      simp only [Bool.false_eq_true, if_false, hempty]
      rw [refreshAfterCacheClear, resolveBase]
      rw [hmap, hpoly, determineMapBoundariesModel.eq_def, hmiss]

/-- Witness for C8 at a concrete state: an unrelated cache entry, no
configured polygon, a failing then a succeeding lookup over one answered
radius question. -/
theorem boundary_unresolved_recovers_witness :
    (refreshQuestionsModel
        ⟨false, [("alpha", outerFrame)], none, none, some outerFrame⟩ false
        [⟨1, QuestionData.radius (0, 0) 2 (some true), true⟩] "beta"
        (.error "down") emptyRegistry false).isLoading = false ∧
      (refreshQuestionsModel
        ⟨false, [("alpha", outerFrame)], none, none, some outerFrame⟩ false
        [⟨1, QuestionData.radius (0, 0) 2 (some true), true⟩] "beta"
        (.error "down") emptyRegistry false).mapGeoJSON = none ∧
      (refreshQuestionsModel
        ⟨false, [("alpha", outerFrame)], none, none, some outerFrame⟩ false
        [⟨1, QuestionData.radius (0, 0) 2 (some true), true⟩] "beta"
        (.error "down") emptyRegistry false).polyGeoJSON = none ∧
      (refreshQuestionsModel
        ⟨false, [("alpha", outerFrame)], none, none, some outerFrame⟩ false
        [⟨1, QuestionData.radius (0, 0) 2 (some true), true⟩] "beta"
        (.error "down") emptyRegistry false).questionFinishedMapData
        = MapState.questionFinishedMapData
            ⟨false, [("alpha", outerFrame)], none, none, some outerFrame⟩ ∧
      (refreshQuestionsModel
          (refreshQuestionsModel
            ⟨false, [("alpha", outerFrame)], none, none, some outerFrame⟩
            false [⟨1, QuestionData.radius (0, 0) 2 (some true), true⟩]
            "beta" (.error "down") emptyRegistry false)
          false [⟨1, QuestionData.radius (0, 0) 2 (some true), true⟩] "beta"
          (.ok outerFrame) emptyRegistry false).questionFinishedMapData
        = some (derive outerFrame
            [⟨1, QuestionData.radius (0, 0) 2 (some true), true⟩]
            emptyRegistry false).mask ∧
      (refreshQuestionsModel
          (refreshQuestionsModel
            ⟨false, [("alpha", outerFrame)], none, none, some outerFrame⟩
            false [⟨1, QuestionData.radius (0, 0) 2 (some true), true⟩]
            "beta" (.error "down") emptyRegistry false)
          false [⟨1, QuestionData.radius (0, 0) 2 (some true), true⟩] "beta"
          (.ok outerFrame) emptyRegistry false).isLoading = false :=
  boundary_unresolved_recovers
    ⟨false, [("alpha", outerFrame)], none, none, some outerFrame⟩
    [⟨1, QuestionData.radius (0, 0) 2 (some true), true⟩] "beta" "down"
    emptyRegistry false outerFrame (by decide) rfl rfl (by decide)

end JetLag
